import Mathlib

/-
  Shallow embedding of the Cloudflare D1 DBAPI driver
  (src/sqlalchemy_cloudflare_d1/connection.py and dialect_async.py).

  Python values are modelled by `PyVal`; a D1 row (a Python dict keyed by
  column name, insertion ordered) is an association list `Row`; the
  normalized query result is `QueryResult`; the per-cursor state is
  `CursorState`.  Transport calls are modelled by oracles (`Env`, `D1Env`)
  returning `Except`, mirroring the fallible HTTP / native-binding calls.
-/

namespace D1

/-- A Python scalar value as it appears in rows and parameters
(`None`, int, str, bool). -/
inductive PyVal where
  | vnull
  | vint (i : Int)
  | vstr (s : String)
  | vbool (b : Bool)
deriving DecidableEq

/-- A row mapping: column name → value, in insertion order
(Python dict semantics; keys unique per the server guarantee). -/
abbrev Row := List (String × PyVal)

/-- A value handed to `stmt.bind` in the Worker transport: either a Python
value passed through the FFI boundary as-is, or the host runtime's JS null
marker (the `JSON.parse("null")` value used by `convert_param`). -/
inductive BindVal where
  | py (v : PyVal)
  | jsNull
deriving DecidableEq

/-- The DBAPI exception taxonomy (the classes relevant to the claims). -/
inductive DBErr where
  | interfaceError
  | operationalError
  | programmingError
  | notSupportedError
deriving DecidableEq

/-- The `meta` dictionary of a D1 response: optional `changes` and
`last_row_id` entries (absent key = `none`). -/
structure Meta where
  changes : Option Int := none
  last_row_id : Option Int := none
deriving DecidableEq

/-- The normalized result dict returned by the `_execute_query` variants:
`{"results": ..., "columns": ..., "meta": ..., "success": ...}`. -/
structure QueryResult where
  results : List Row
  columns : List String
  meta : Meta := {}
  success : Bool := true
deriving DecidableEq

/-- One entry of `cursor.description`: the 7-tuple
`(name, None, None, None, None, None, None)` built by `_build_description`;
the six compatibility fields are always `None`. -/
structure Descriptor where
  name : String
  type_code : Option PyVal := none
  display_size : Option PyVal := none
  internal_size : Option PyVal := none
  precision : Option PyVal := none
  scale : Option PyVal := none
  null_ok : Option PyVal := none
deriving DecidableEq

/-- `(name, None, None, None, None, None, None)`. -/
def mkDescriptor (name : String) : Descriptor := { name := name }

/-- `leadsWith pat text`: `pat` is an initial segment of `text`
(character lists; Python `text.startswith(pat)`). -/
def leadsWith : List Char → List Char → Bool
  | [], _ => true
  | _ :: _, [] => false
  | a :: as, b :: bs => a == b && leadsWith as bs

/-- `occursIn pat text`: `pat` occurs contiguously somewhere in `text`
(Python's `pat in text` on strings, over character lists). -/
def occursIn (pat : List Char) : List Char → Bool
  | [] => pat.isEmpty
  | c :: cs => leadsWith pat (c :: cs) || occursIn pat cs

/-- The ASCII whitespace stripped by Python `str.strip()`. -/
def isPyWhitespace (c : Char) : Bool :=
  c == ' ' || c == '\t' || c == '\n' || c == '\r' || c == '\x0b' || c == '\x0c'

/-- Python `str.strip()` over character lists. -/
def pyStrip (cs : List Char) : List Char :=
  ((cs.dropWhile isPyWhitespace).reverse.dropWhile isPyWhitespace).reverse

/-- Python `str.upper()` over character lists (SQL keywords are ASCII). -/
def pyUpper (cs : List Char) : List Char := cs.map Char.toUpper

/-- The row-returning classification of `_build_description`:
`operation.strip().upper()` starts with SELECT / PRAGMA / WITH, or contains
the substring RETURNING anywhere. -/
def isSelectLike (operation : String) : Bool :=
  let operation_upper := pyUpper (pyStrip operation.data)
  leadsWith "SELECT".data operation_upper
    || leadsWith "PRAGMA".data operation_upper
    || leadsWith "WITH".data operation_upper
    || occursIn "RETURNING".data operation_upper

/-- `_build_description operation columns result_data`: `none` for
non-row-returning statements; else descriptors from `columns` when
non-empty, else from the first row's keys, else the empty list. -/
def buildDescription (operation : String) (columns : List String)
    (result_data : List Row) : Option (List Descriptor) :=
  if !isSelectLike operation then
    none
  else if !columns.isEmpty then
    some (columns.map mkDescriptor)
  else
    match result_data with
    | first_row :: _ => some ((first_row.map Prod.fst).map mkDescriptor)
    | [] => some []

/-- The mutable state of `BaseCursorMixin` (fields set by
`_init_cursor_state`). -/
structure CursorState where
  result_data : Option (List Row) := none
  description : Option (List Descriptor) := none
  rowcount : Int := -1
  arraysize : Nat := 1
  closed : Bool := false
  position : Nat := 0
  meta : Meta := {}
deriving DecidableEq

/-- The state produced by `_init_cursor_state`. -/
def initCursorState : CursorState := {}

/-- `BaseCursorMixin._process_result result operation`: buffer the rows,
store the meta, set `rowcount` to `meta["changes"]` with fallback to the
buffered row count, build the description, reset the position. -/
def processResult (st : CursorState) (result : QueryResult)
    (operation : String) : CursorState :=
  { st with
    result_data := some result.results
    meta := result.meta
    rowcount := result.meta.changes.getD (result.results.length : Int)
    description := buildDescription operation result.columns result.results
    position := 0 }

/-- `row_data.get(name)`: first value stored under `name`, Python `None`
(`vnull`) when the key is absent. -/
def rowGet (row : Row) (name : String) : PyVal :=
  match row.find? (fun p => p.1 == name) with
  | some p => p.2
  | none => PyVal.vnull

/-- The tuple built by `fetchone` from one buffered row: ordered by the
description's column names when `self._description` is truthy (non-`None`,
non-empty), else the row dict's own value order. -/
def rowToTuple (description : Option (List Descriptor)) (row : Row) :
    List PyVal :=
  match description with
  | some d => if d.isEmpty then row.map Prod.snd
              else d.map (fun de => rowGet row de.name)
  | none => row.map Prod.snd

/-- The body of `fetchone` after the closed check: `None` when there is no
buffer or the position is past the end, else the tuple at the current
position with the position advanced by 1. -/
def fetchoneOpen (st : CursorState) : Option (List PyVal) × CursorState :=
  match st.result_data with
  | none => (none, st)
  | some rows =>
    if h : st.position < rows.length then
      (some (rowToTuple st.description (rows.get ⟨st.position, h⟩)),
        { st with position := st.position + 1 })
    else
      (none, st)

/-- `BaseCursorMixin.fetchone`: `ProgrammingError` when closed, else the
next row (or `None`). -/
def fetchone (st : CursorState) :
    Except DBErr (Option (List PyVal) × CursorState) :=
  if st.closed then .error .programmingError else .ok (fetchoneOpen st)

/-- The `fetchall` loop over a non-empty buffer: repeat the `fetchone` body
(the dite of `fetchoneOpen`) until it yields `None`, collecting the tuples
and threading the advancing position (see `fetchLoop_step` for the loop's
equivalence with iterated `fetchoneOpen`). -/
def fetchLoopGo (rows : List Row) (description : Option (List Descriptor))
    (pos : Nat) : List (List PyVal) × Nat :=
  if h : pos < rows.length then
    (rowToTuple description (rows.get ⟨pos, h⟩)
        :: (fetchLoopGo rows description (pos + 1)).1,
      (fetchLoopGo rows description (pos + 1)).2)
  else
    ([], pos)
termination_by rows.length - pos
decreasing_by all_goals omega

/-- The `fetchall` loop on the cursor state: with no buffer the first
`fetchone` yields `None` at once; else the loop drains the buffer. -/
def fetchLoop (st : CursorState) : List (List PyVal) × CursorState :=
  match st.result_data with
  | none => ([], st)
  | some rows =>
    ((fetchLoopGo rows st.description st.position).1,
      { st with position := (fetchLoopGo rows st.description st.position).2 })

/-- `BaseCursorMixin.fetchall`: `ProgrammingError` when closed, else drain
the buffer from the current position. -/
def fetchall (st : CursorState) :
    Except DBErr (List (List PyVal) × CursorState) :=
  if st.closed then .error .programmingError else .ok (fetchLoop st)

/-- The `fetchmany` loop: up to `size` repetitions of `fetchone`, stopping
early on `None`. -/
def fetchmanyGo : Nat → CursorState → List (List PyVal) × CursorState
  | 0, st => ([], st)
  | n + 1, st =>
    match fetchoneOpen st with
    | (none, st1) => ([], st1)
    | (some t, st1) =>
      let rest := fetchmanyGo n st1
      (t :: rest.1, rest.2)

/-- `BaseCursorMixin.fetchmany`: `ProgrammingError` when closed; `size`
defaults to `arraysize`. -/
def fetchmany (st : CursorState) (size : Option Nat) :
    Except DBErr (List (List PyVal) × CursorState) :=
  if st.closed then .error .programmingError
  else .ok (fetchmanyGo (size.getD st.arraysize) st)

/-- `BaseCursorMixin.close`: set `closed`, discard the buffer and the
description.  A plain assignment: it has no failure path. -/
def close (st : CursorState) : CursorState :=
  { st with closed := true, result_data := none, description := none }

/-- The transport oracle behind `Connection._execute_query`: for a
statement text and parameter list, either a normalized result or a
transport failure. -/
abbrev Env := String → List PyVal → Except Unit QueryResult

/-- `Cursor.execute`: `ProgrammingError` when closed; a transport failure
is wrapped as `OperationalError`; on success the result is processed into
the cursor state. -/
def execute (env : Env) (st : CursorState) (operation : String)
    (parameters : List PyVal) : Except DBErr CursorState :=
  if st.closed then .error .programmingError
  else
    match env operation parameters with
    | .error _ => .error .operationalError
    | .ok result => .ok (processResult st result operation)

/-- The `executemany` loop: one `execute` per parameter set, in order,
summing the non-negative `rowcount` of each call; the returned list logs
the parameter set of each `execute` invocation in call order. -/
def executemanyGo (env : Env) (operation : String) :
    List (List PyVal) → CursorState → Int → List (List PyVal) →
    Except DBErr (CursorState × List (List PyVal))
  | [], st, total_rowcount, calls =>
    .ok ({ st with rowcount := total_rowcount }, calls.reverse)
  | parameters :: rest, st, total_rowcount, calls =>
    match execute env st operation parameters with
    | .error e => .error e
    | .ok st1 =>
      executemanyGo env operation rest st1
        (total_rowcount + if st1.rowcount ≥ 0 then st1.rowcount else 0)
        (parameters :: calls)

/-- `Cursor.executemany`: `ProgrammingError` when closed, else the
sequential-execute loop, finally storing the accumulated rowcount. -/
def executemany (env : Env) (st : CursorState) (operation : String)
    (seq_of_parameters : List (List PyVal)) :
    Except DBErr (CursorState × List (List PyVal)) :=
  if st.closed then .error .programmingError
  else executemanyGo env operation seq_of_parameters st 0 []

/-- `convert_param` of `SyncWorkerConnection._execute_query`: Python `None`
becomes the JS null marker, everything else is passed through. -/
def convert_param (val : PyVal) : BindVal :=
  match val with
  | .vnull => .jsNull
  | v => .py v

/-- The parameter list handed to `stmt.bind` by
`WorkerConnection._execute_query_async`: values are passed through the FFI
boundary as-is, with no `None` conversion (empty / absent parameters bind
nothing). -/
def workerAsyncBound (parameters : List PyVal) : List BindVal :=
  if parameters.isEmpty then [] else parameters.map BindVal.py

/-- The parameter list handed to `stmt.bind` by
`SyncWorkerConnection._execute_query`: each value goes through
`convert_param` first. -/
def syncWorkerBound (parameters : List PyVal) : List BindVal :=
  if parameters.isEmpty then [] else parameters.map convert_param

/-- `_parse_all_result` after JsProxy unwrapping: rows are kept as given,
columns are the first row's keys (empty when there are no rows). -/
def parse_all_result (results : List Row) (meta : Meta) : QueryResult :=
  { results := results
    columns := match results with
      | [] => []
      | first :: _ => first.map Prod.fst
    meta := meta
    success := true }

/-- The fallback gate used by both Worker execution paths:
`query.strip().upper().startswith("SELECT")`. -/
def selectFallbackGate (query : String) : Bool :=
  leadsWith "SELECT".data (pyUpper (pyStrip query.data))

/-- The native-binding oracle: `allRes` models `await stmt.all()` (after
unwrapping, as a row list plus meta), `rawRes` models
`await stmt.raw({columnNames: true})` (a list whose first entry is the
column-name row); both are keyed by the statement text and the bound
parameter list, and both may fail. -/
structure D1Env where
  allRes : String → List BindVal → Except Unit (List Row × Meta)
  rawRes : String → List BindVal → Except Unit (List (List String))

/-- `WorkerConnection._execute_query_async`: prepare+bind+all, parse, and —
only when the parse produced no columns and no rows and the statement
passes the SELECT gate — re-issue the identical statement and bound
parameters through `raw({columnNames: true})`, keeping only its first row
as the column list and swallowing any error.  The Bool records whether the
fallback call was issued. -/
def workerExecuteQueryAsync (env : D1Env) (query : String)
    (parameters : List PyVal) : Except DBErr (QueryResult × Bool) :=
  let bound := workerAsyncBound parameters
  match env.allRes query bound with
  | .error _ => .error .operationalError
  | .ok (results, meta) =>
    let parsed := parse_all_result results meta
    if parsed.columns.isEmpty && parsed.results.isEmpty
        && selectFallbackGate query then
      match env.rawRes query bound with
      | .error _ => .ok (parsed, true)
      | .ok [] => .ok (parsed, true)
      | .ok (first_row :: _) =>
        .ok ({ parsed with
                columns := if first_row.isEmpty then [] else first_row },
             true)
    else
      .ok (parsed, false)

/-- `SyncWorkerConnection._execute_query` (inside `run_sync`): identical
structure, except parameters go through `convert_param` and the fallback
columns are only installed when non-empty (`if fallback_columns:`). -/
def syncWorkerExecuteQuery (env : D1Env) (query : String)
    (parameters : List PyVal) : Except DBErr (QueryResult × Bool) :=
  let bound := syncWorkerBound parameters
  match env.allRes query bound with
  | .error _ => .error .operationalError
  | .ok (results, meta) =>
    let parsed := parse_all_result results meta
    if parsed.columns.isEmpty && parsed.results.isEmpty
        && selectFallbackGate query then
      match env.rawRes query bound with
      | .error _ => .ok (parsed, true)
      | .ok [] => .ok (parsed, true)
      | .ok (first_row :: _) =>
        .ok (if first_row.isEmpty then (parsed, true)
             else ({ parsed with columns := first_row }, true))
    else
      .ok (parsed, false)

/-- The state of `AsyncAdapt_d1_cursor` (greenlet-bridged dialect cursor). -/
structure AdaptCursorState where
  description : Option (List Descriptor) := none
  rows : List (List PyVal) := []
  rowcount : Int := -1
  lastrowid : Option Int := none
  arraysize : Nat := 1
deriving DecidableEq

/-- `AsyncAdapt_d1_cursor.execute`: run the inner async cursor's execute on
a fresh cursor; for row-returning statements set `description` (falsy inner
description becomes `[]`), clear `lastrowid`, set `rowcount := -1`, and
eagerly drain the rows; otherwise clear description/rows and propagate the
inner cursor's `rowcount` and `lastrowid`. -/
def adaptExecute (env : Env) (acs : AdaptCursorState) (operation : String)
    (parameters : List PyVal) : Except DBErr AdaptCursorState :=
  match execute env initCursorState operation parameters with
  | .error e => .error e
  | .ok inner =>
    if isSelectLike operation then
      .ok { acs with
        description := some (inner.description.getD [])
        lastrowid := none
        rowcount := -1
        rows := (fetchLoop inner).1 }
    else
      .ok { acs with
        description := none
        lastrowid := inner.meta.last_row_id
        rowcount := inner.rowcount
        rows := [] }

/-- Witness fixture: a two-row result for a two-column SELECT. -/
def resTwo : QueryResult :=
  { results := [[("id", PyVal.vint 1), ("name", PyVal.vstr "a")],
                [("id", PyVal.vint 2), ("name", PyVal.vstr "b")]]
    columns := ["id", "name"] }

/-- Witness fixture: a one-row result for the single-row property. -/
def rowOne : Row := [("id", PyVal.vint 7), ("name", PyVal.vstr "only_row")]

/-- Witness fixture: a binding whose `all()` is empty and whose raw
column-recovery call succeeds with a one-column header. -/
def envFallbackOk : D1Env :=
  { allRes := fun _ _ => .ok ([], {})
    rawRes := fun _ _ => .ok [["id"]] }

/-- Witness fixture: a binding whose `all()` is empty and whose raw
column-recovery call fails. -/
def envFallbackErr : D1Env :=
  { allRes := fun _ _ => .ok ([], {})
    rawRes := fun _ _ => .error () }

/-- Witness fixture: a transport that always fails (never reached by the
closed-cursor checks). -/
def envDown : Env := fun _ _ => .error ()

/-- Witness fixture: a transport reporting one changed row per statement. -/
def envOneChange : Env :=
  fun _ _ => .ok { results := [], columns := [], meta := { changes := some 1 } }

/-- Witness fixture: a transport returning one row for a SELECT. -/
def envSelectOne : Env :=
  fun _ _ => .ok { results := [[("id", PyVal.vint 1)]], columns := ["id"] }

/-! ### Helper lemmas about the embedded operations -/

@[simp] theorem processResult_rowcount (st : CursorState) (result : QueryResult)
    (operation : String) :
    (processResult st result operation).rowcount
      = result.meta.changes.getD (result.results.length : Int) := by
  simp [processResult]

@[simp] theorem processResult_result_data (st : CursorState)
    (result : QueryResult) (operation : String) :
    (processResult st result operation).result_data = some result.results := by
  simp [processResult]

@[simp] theorem processResult_description (st : CursorState)
    (result : QueryResult) (operation : String) :
    (processResult st result operation).description
      = buildDescription operation result.columns result.results := by
  simp [processResult]

@[simp] theorem processResult_closed (st : CursorState) (result : QueryResult)
    (operation : String) :
    (processResult st result operation).closed = st.closed := by
  simp [processResult]

@[simp] theorem processResult_position (st : CursorState) (result : QueryResult)
    (operation : String) :
    (processResult st result operation).position = 0 := by
  simp [processResult]

@[simp] theorem processResult_meta (st : CursorState) (result : QueryResult)
    (operation : String) :
    (processResult st result operation).meta = result.meta := by
  simp [processResult]

theorem fetchoneOpen_no_buffer (st : CursorState) (h : st.result_data = none) :
    fetchoneOpen st = (none, st) := by
  simp [fetchoneOpen, h]

theorem fetchoneOpen_done (st : CursorState) (rows : List Row)
    (hrd : st.result_data = some rows) (hge : rows.length ≤ st.position) :
    fetchoneOpen st = (none, st) := by
  simp only [fetchoneOpen, hrd]
  rw [dif_neg (by omega)]

theorem fetchoneOpen_next (st : CursorState) (rows : List Row)
    (hrd : st.result_data = some rows) (h : st.position < rows.length) :
    fetchoneOpen st =
      (some (rowToTuple st.description (rows.get ⟨st.position, h⟩)),
        { st with position := st.position + 1 }) := by
  simp only [fetchoneOpen, hrd]
  rw [dif_pos h]

theorem fetchLoopGo_done (rows : List Row) (description : Option (List Descriptor))
    (pos : Nat) (hge : rows.length ≤ pos) :
    fetchLoopGo rows description pos = ([], pos) := by
  unfold fetchLoopGo
  rw [dif_neg (by omega)]

theorem fetchLoopGo_cons (rows : List Row) (description : Option (List Descriptor))
    (pos : Nat) (h : pos < rows.length) :
    fetchLoopGo rows description pos =
      (rowToTuple description (rows.get ⟨pos, h⟩)
          :: (fetchLoopGo rows description (pos + 1)).1,
        (fetchLoopGo rows description (pos + 1)).2) := by
  conv_lhs => rw [fetchLoopGo]
  rw [dif_pos h]

theorem fetchLoop_no_buffer (st : CursorState) (h : st.result_data = none) :
    fetchLoop st = ([], st) := by
  simp [fetchLoop, h]

/-- The `fetchall` loop is the repetition of the `fetchone` body until it
yields `None`, as in the source. -/
theorem fetchLoop_step (st : CursorState) :
    fetchLoop st =
      match fetchoneOpen st with
      | (none, st1) => ([], st1)
      | (some t, st1) => (t :: (fetchLoop st1).1, (fetchLoop st1).2) := by
  cases hrd : st.result_data with
  | none => rw [fetchLoop_no_buffer st hrd, fetchoneOpen_no_buffer st hrd]
  | some rows =>
    by_cases h : st.position < rows.length
    · rw [fetchoneOpen_next st rows hrd h]
      simp only [fetchLoop, hrd]
      rw [fetchLoopGo_cons rows st.description st.position h]
    · rw [fetchoneOpen_done st rows hrd (by omega)]
      simp only [fetchLoop, hrd]
      rw [fetchLoopGo_done rows st.description st.position (by omega)]
      rw [← hrd]

theorem fetchLoopGo_drain_aux (n : Nat) (rows : List Row)
    (description : Option (List Descriptor)) :
    ∀ pos : Nat, rows.length - pos ≤ n →
      fetchLoopGo rows description pos =
        ((rows.drop pos).map (rowToTuple description), max pos rows.length) := by
  induction n with
  | zero =>
    intro pos hle
    have hge : rows.length ≤ pos := by omega
    rw [fetchLoopGo_done rows description pos hge]
    rw [List.drop_eq_nil_of_le hge, Nat.max_eq_left hge]
    simp
  | succ n ih =>
    intro pos hle
    by_cases h : pos < rows.length
    · rw [fetchLoopGo_cons rows description pos h]
      rw [ih (pos + 1) (by omega)]
      rw [List.drop_eq_getElem_cons h]
      simp only [List.map_cons, List.get_eq_getElem]
      have hmax : max (pos + 1) rows.length = max pos rows.length := by omega
      rw [hmax]
    · have hge : rows.length ≤ pos := by omega
      rw [fetchLoopGo_done rows description pos hge]
      rw [List.drop_eq_nil_of_le hge, Nat.max_eq_left hge]
      simp

/-- Draining a buffer yields every row from the current position, in
order, as tuples, leaving the position at the end of the buffer. -/
theorem fetchLoop_drain (st : CursorState) (rows : List Row)
    (hrd : st.result_data = some rows) :
    fetchLoop st =
      ((rows.drop st.position).map (rowToTuple st.description),
        { st with position := max st.position rows.length }) := by
  simp only [fetchLoop, hrd]
  rw [fetchLoopGo_drain_aux (rows.length - st.position) rows st.description
    st.position le_rfl]

theorem rowGet_cons_self (k : String) (v : PyVal) (r : Row) :
    rowGet ((k, v) :: r) k = v := by
  unfold rowGet
  rw [List.find?_cons_of_pos _ (by simp)]

theorem rowGet_cons_ne (k : String) (v : PyVal) (r : Row) (k' : String)
    (h : k' ≠ k) : rowGet ((k, v) :: r) k' = rowGet r k' := by
  unfold rowGet
  rw [List.find?_cons_of_neg _ (by simpa using Ne.symm h)]

/-- Looking every key of a duplicate-free row mapping back up in that
mapping returns exactly its values, in order. -/
theorem map_rowGet_self (r : Row) (h : (r.map Prod.fst).Nodup) :
    (r.map Prod.fst).map (rowGet r) = r.map Prod.snd := by
  induction r with
  | nil => rfl
  | cons p r ih =>
    obtain ⟨k, v⟩ := p
    simp only [List.map_cons, List.nodup_cons] at h ⊢
    obtain ⟨hk, hnd⟩ := h
    rw [rowGet_cons_self]
    congr 1
    rw [← ih hnd]
    refine List.map_congr_left ?_
    intro k' hk'
    exact rowGet_cons_ne k v r k' (fun he => hk (he ▸ hk'))

theorem buildDescription_eq_none (operation : String) (columns : List String)
    (result_data : List Row) (hs : isSelectLike operation = false) :
    buildDescription operation columns result_data = none := by
  unfold buildDescription
  rw [if_pos (by simp [hs])]

theorem buildDescription_isSome (operation : String) (columns : List String)
    (result_data : List Row) (hs : isSelectLike operation = true) :
    ∃ d, buildDescription operation columns result_data = some d := by
  unfold buildDescription
  rw [if_neg (by simp [hs])]
  by_cases hc : columns.isEmpty
  · rw [if_neg (by simp [hc])]
    cases result_data with
    | nil => exact ⟨[], rfl⟩
    | cons r rest => exact ⟨_, rfl⟩
  · rw [if_pos (by simp_all)]
    exact ⟨_, rfl⟩

/-- For a row-returning one-row result with columns matching the row's keys
(or absent), the description is exactly the row's keys as descriptors. -/
theorem buildDescription_single (operation : String) (cols : List String)
    (r : Row) (hsel : isSelectLike operation = true)
    (hkeys : cols = r.map Prod.fst ∨ cols = []) :
    buildDescription operation cols [r]
      = some ((r.map Prod.fst).map mkDescriptor) := by
  unfold buildDescription
  rw [if_neg (by simp [hsel])]
  by_cases hc : cols.isEmpty
  · rw [if_neg (by simp [hc])]
  · have hk : cols = r.map Prod.fst := by
      rcases hkeys with hk | hk
      · exact hk
      · exact absurd (by simp [hk]) hc
    rw [if_pos (by simp_all), hk]

theorem eq_update_position (st : CursorState) (p : Nat) (h : st.position = p) :
    { st with position := p } = st := by
  cases st
  simp_all

/-- The tuple of a row under its own-keys description is exactly the row's
values, in order. -/
theorem rowToTuple_self_keys (r : Row) (hnodup : (r.map Prod.fst).Nodup) :
    rowToTuple (some ((r.map Prod.fst).map mkDescriptor)) r
      = r.map Prod.snd := by
  have hred : rowToTuple (some ((r.map Prod.fst).map mkDescriptor)) r
      = if ((r.map Prod.fst).map mkDescriptor).isEmpty
        then r.map Prod.snd
        else ((r.map Prod.fst).map mkDescriptor).map
          (fun de => rowGet r de.name) := rfl
  rw [hred]
  by_cases hre : ((r.map Prod.fst).map mkDescriptor).isEmpty
  · rw [if_pos hre]
  · rw [if_neg hre, List.map_map]
    have hcomp : ((fun de => rowGet r de.name) ∘ mkDescriptor) = rowGet r := by
      funext k
      rfl
    rw [hcomp]
    exact map_rowGet_self r hnodup

/-! ### The claims -/

/-- C1: executing a row-returning statement whose normalized result has
zero rows but a non-empty column list yields `fetchall() = []` while
`description` is non-`None` and lists exactly those column names, in
order. -/
theorem zero_row_description (operation : String) (cols : List String)
    (m : Meta) (st : CursorState)
    (hsel : isSelectLike operation = true) (hcols : cols ≠ [])
    (hst : st = processResult initCursorState
      { results := [], columns := cols, meta := m } operation) :
    fetchall st = .ok ([], st)
      ∧ st.description = some (cols.map mkDescriptor) := by
  subst hst
  constructor
  · unfold fetchall
    rw [if_neg (by simp [initCursorState])]
    rw [fetchLoop_drain _ [] (by simp)]
    simp only [List.drop_nil, List.map_nil, List.length_nil, Nat.max_zero]
  · rw [processResult_description]
    unfold buildDescription
    rw [if_neg (by simp [hsel]), if_pos (by simp_all)]

/-- Witness for C1 at a concrete zero-row three-column SELECT. -/
theorem zero_row_description_witness :
    fetchall (processResult initCursorState
        { results := [], columns := ["id", "name", "value"], meta := {} }
        "SELECT id, name, value FROM t") =
      .ok ([], processResult initCursorState
        { results := [], columns := ["id", "name", "value"], meta := {} }
        "SELECT id, name, value FROM t")
      ∧ (processResult initCursorState
          { results := [], columns := ["id", "name", "value"], meta := {} }
          "SELECT id, name, value FROM t").description =
        some [mkDescriptor "id", mkDescriptor "name", mkDescriptor "value"] := by
  have h := zero_row_description "SELECT id, name, value FROM t"
    ["id", "name", "value"] {} _ (by decide) (by decide) rfl
  refine ⟨h.1, ?_⟩
  rw [h.2]
  rfl

/-- C2: executing a row-returning statement whose normalized result has
exactly one row yields `fetchall()` with exactly one tuple holding the
row's data values; the description holds exactly the column names (the six
other descriptor fields are `none` by construction of `mkDescriptor`) and
does not depend on the row's values, only on its keys. -/
theorem single_row_fetch (operation : String) (r : Row) (cols : List String)
    (m : Meta) (st : CursorState)
    (hsel : isSelectLike operation = true)
    (hkeys : cols = r.map Prod.fst ∨ cols = [])
    (hnodup : (r.map Prod.fst).Nodup)
    (hst : st = processResult initCursorState
      { results := [r], columns := cols, meta := m } operation) :
    st.description = some ((r.map Prod.fst).map mkDescriptor)
      ∧ fetchall st = .ok ([r.map Prod.snd], { st with position := 1 })
      ∧ (∀ r' : Row, r'.map Prod.fst = r.map Prod.fst →
          (processResult initCursorState
            { results := [r'], columns := cols, meta := m } operation).description
            = st.description) := by
  have hdesc : st.description = some ((r.map Prod.fst).map mkDescriptor) := by
    rw [hst, processResult_description]
    exact buildDescription_single operation cols r hsel hkeys
  refine ⟨hdesc, ?_, ?_⟩
  · unfold fetchall
    rw [if_neg (by simp [hst, initCursorState])]
    rw [fetchLoop_drain _ [r] (by simp [hst])]
    have hpos : st.position = 0 := by simp [hst]
    rw [hpos, hdesc]
    simp only [List.drop_zero, List.map_cons, List.map_nil,
      List.length_cons, List.length_nil, Nat.zero_max]
    rw [rowToTuple_self_keys r hnodup]
  · intro r' hkr
    rw [processResult_description, hdesc]
    rw [buildDescription_single operation cols r' hsel
      (by rw [hkr]; exact hkeys), hkr]

/-- Witness for C2 at a concrete one-row two-column SELECT. -/
theorem single_row_fetch_witness :
    (processResult initCursorState
        { results := [rowOne], columns := ["id", "name"], meta := {} }
        "SELECT id, name FROM t").description =
      some [mkDescriptor "id", mkDescriptor "name"]
      ∧ fetchall (processResult initCursorState
          { results := [rowOne], columns := ["id", "name"], meta := {} }
          "SELECT id, name FROM t") =
        .ok ([[PyVal.vint 7, PyVal.vstr "only_row"]],
          { processResult initCursorState
              { results := [rowOne], columns := ["id", "name"], meta := {} }
              "SELECT id, name FROM t" with position := 1 }) := by
  have h := single_row_fetch "SELECT id, name FROM t" rowOne ["id", "name"]
    {} _ (by decide) (Or.inl (by decide)) (by decide) rfl
  refine ⟨?_, ?_⟩
  · rw [h.1]
    rfl
  · rw [h.2.1]
    rfl

/-- C3: after every successful execute, `description` is `None` exactly
when the statement is classified non-row-returning by the trimmed,
case-folded SELECT/PRAGMA/WITH/RETURNING heuristic; in particular an
INSERT ... RETURNING statement is classified row-returning. -/
theorem description_none_iff_not_row_returning :
    (∀ (st : CursorState) (result : QueryResult) (operation : String),
      (processResult st result operation).description = none
        ↔ isSelectLike operation = false)
      ∧ isSelectLike "INSERT INTO t (a, b) VALUES (1, 2) RETURNING id" = true := by
  constructor
  · intro st result operation
    rw [processResult_description]
    constructor
    · intro h
      cases hs : isSelectLike operation with
      | false => rfl
      | true =>
        obtain ⟨d, hd⟩ :=
          buildDescription_isSome operation result.columns result.results hs
        rw [hd] at h
        cases h
    · intro hs
      exact buildDescription_eq_none operation result.columns result.results hs
  · decide

/-- C7: after a successful execute, `fetchone` returns `None` at or past
the end of the buffer, and otherwise the tuple of the row at the current
position (ordered per `rowToTuple`, i.e. by the description's names when
truthy, else the row's own key order), advancing the position by exactly
one; consequently `fetchall` yields the rows as tuples in exactly the
provider's order. -/
theorem fetch_order (operation : String) (res : QueryResult)
    (st : CursorState)
    (hst : st = processResult initCursorState res operation) :
    (∀ pos : Nat, res.results.length ≤ pos →
      fetchone { st with position := pos }
        = .ok (none, { st with position := pos }))
    ∧ (∀ (pos : Nat) (h : pos < res.results.length),
      fetchone { st with position := pos } =
        .ok (some (rowToTuple st.description (res.results.get ⟨pos, h⟩)),
          { st with position := pos + 1 }))
    ∧ fetchall st =
        .ok (res.results.map (rowToTuple st.description),
          { st with position := res.results.length }) := by
  have hcl : st.closed = false := by simp [hst, initCursorState]
  have hrd : st.result_data = some res.results := by simp [hst]
  refine ⟨?_, ?_, ?_⟩
  · intro pos hge
    unfold fetchone
    rw [if_neg (by simp [hcl])]
    rw [fetchoneOpen_done _ res.results (by simp [hrd]) (by simpa using hge)]
  · intro pos h
    unfold fetchone
    rw [if_neg (by simp [hcl])]
    rw [fetchoneOpen_next _ res.results (by simp [hrd]) (by simpa using h)]
  · unfold fetchall
    rw [if_neg (by simp [hcl])]
    rw [fetchLoop_drain st res.results hrd]
    have hpos : st.position = 0 := by simp [hst]
    rw [hpos]
    simp only [List.drop_zero, Nat.zero_max]

/-- Witness for C7: a two-row SELECT is drained in provider order, and a
further `fetchone` at the end yields `None`. -/
theorem fetch_order_witness :
    fetchall (processResult initCursorState resTwo "SELECT id, name FROM t") =
      .ok ([[PyVal.vint 1, PyVal.vstr "a"], [PyVal.vint 2, PyVal.vstr "b"]],
        { processResult initCursorState resTwo "SELECT id, name FROM t" with
            position := 2 })
    ∧ fetchone { processResult initCursorState resTwo "SELECT id, name FROM t"
          with position := 2 } =
        .ok (none,
          { processResult initCursorState resTwo "SELECT id, name FROM t" with
              position := 2 }) := by
  have h := fetch_order "SELECT id, name FROM t" resTwo _ rfl
  refine ⟨?_, ?_⟩
  · rw [h.2.2]
    rfl
  · exact h.1 2 (by decide)

/-- C8: `close` is idempotent and total (it is a plain state update with no
failure path), it marks the cursor closed, and every `execute`,
`executemany`, `fetchone`, `fetchmany` or `fetchall` on a closed cursor
fails with `ProgrammingError`. -/
theorem close_idempotent_and_closed_ops :
    (∀ st : CursorState, close (close st) = close st)
    ∧ (∀ st : CursorState, (close st).closed = true)
    ∧ (∀ (env : Env) (st : CursorState) (operation : String)
        (parameters : List PyVal) (seq_of_parameters : List (List PyVal))
        (size : Option Nat), st.closed = true →
        execute env st operation parameters = .error .programmingError
        ∧ executemany env st operation seq_of_parameters
            = .error .programmingError
        ∧ fetchone st = .error .programmingError
        ∧ fetchmany st size = .error .programmingError
        ∧ fetchall st = .error .programmingError) := by
  refine ⟨fun st => rfl, fun st => rfl, ?_⟩
  intro env st operation parameters seq_of_parameters size hcl
  refine ⟨?_, ?_, ?_, ?_, ?_⟩ <;>
    simp [execute, executemany, fetchone, fetchmany, fetchall, hcl]

/-- Witness for C8: all five operations fail on a concretely closed
cursor. -/
theorem close_idempotent_and_closed_ops_witness :
    execute envDown (close initCursorState) "SELECT 1" []
        = .error .programmingError
    ∧ executemany envDown (close initCursorState) "SELECT 1" []
        = .error .programmingError
    ∧ fetchone (close initCursorState) = .error .programmingError
    ∧ fetchmany (close initCursorState) none = .error .programmingError
    ∧ fetchall (close initCursorState) = .error .programmingError :=
  close_idempotent_and_closed_ops.2.2 envDown (close initCursorState)
    "SELECT 1" [] [] none rfl

/-- The invariant of the `executemany` loop: every parameter set is passed
to `execute` once, in order; the accumulated total adds each successful
call's non-negative rowcount; the final state is the last call's state with
the accumulated rowcount stored. -/
theorem executemanyGo_spec (env : Env) (operation : String)
    (resf : List PyVal → QueryResult) :
    ∀ (pss : List (List PyVal)) (st : CursorState) (total : Int)
      (calls : List (List PyVal)),
      st.closed = false →
      (∀ p ∈ pss, env operation p = .ok (resf p)) →
      ∃ stf, executemanyGo env operation pss st total calls
          = .ok (stf, calls.reverse ++ pss)
        ∧ stf.closed = false
        ∧ stf.rowcount = total + (pss.map (fun p =>
            if (resf p).meta.changes.getD ((resf p).results.length : Int) ≥ 0
            then (resf p).meta.changes.getD ((resf p).results.length : Int)
            else 0)).sum
        ∧ (pss = [] → stf = { st with rowcount := total })
        ∧ (∀ plast, pss.getLast? = some plast →
            stf.result_data = some (resf plast).results
            ∧ stf.description
              = buildDescription operation (resf plast).columns
                  (resf plast).results) := by
  intro pss
  induction pss with
  | nil =>
    intro st total calls hcl hok
    refine ⟨{ st with rowcount := total }, ?_, ?_, ?_, fun _ => rfl, ?_⟩
    · simp [executemanyGo]
    · simpa using hcl
    · simp
    · intro plast hl
      simp at hl
  | cons p ps ih =>
    intro st total calls hcl hok
    have hp : env operation p = .ok (resf p) := hok p (by simp)
    have hexec : execute env st operation p
        = .ok (processResult st (resf p) operation) := by
      unfold execute
      rw [if_neg (by simp [hcl]), hp]
    obtain ⟨stf, heq, hclf, hrc, hnil, hlast⟩ :=
      ih (processResult st (resf p) operation)
        (total + if (processResult st (resf p) operation).rowcount ≥ 0
          then (processResult st (resf p) operation).rowcount else 0)
        (p :: calls) (by simp [hcl]) (fun q hq => hok q (by simp [hq]))
    refine ⟨stf, ?_, hclf, ?_, ?_, ?_⟩
    · rw [show executemanyGo env operation (p :: ps) st total calls
          = (match execute env st operation p with
             | .error e => .error e
             | .ok st1 => executemanyGo env operation ps st1
                 (total + if st1.rowcount ≥ 0 then st1.rowcount else 0)
                 (p :: calls)) from rfl]
      rw [hexec]
      show executemanyGo env operation ps (processResult st (resf p) operation)
          (total + if (processResult st (resf p) operation).rowcount ≥ 0
            then (processResult st (resf p) operation).rowcount else 0)
          (p :: calls)
        = Except.ok (stf, calls.reverse ++ p :: ps)
      rw [heq]
      simp
    · rw [hrc]
      simp only [processResult_rowcount, List.map_cons, List.sum_cons]
      omega
    · intro h
      exact absurd h (by simp)
    · intro plast hl
      cases ps with
      | nil =>
        have hpl : p = plast := by simpa using hl
        subst hpl
        have hs := hnil rfl
        rw [hs]
        constructor
        · simp
        · simp
      | cons q qs =>
        rw [List.getLast?_cons_cons] at hl
        exact hlast plast hl

/-- C9: `executemany` runs `execute` once per parameter set, sequentially
in order (the returned call log is exactly the parameter-set list); the
final `rowcount` is the sum of the non-negative per-call counts — in
particular N sets each changing exactly one row give `rowcount = N` — and
the final buffered rows and description come from the last execution
alone. -/
theorem executemany_rowcount (env : Env) (operation : String)
    (pss : List (List PyVal)) (st0 : CursorState)
    (resf : List PyVal → QueryResult)
    (hcl : st0.closed = false)
    (hok : ∀ p ∈ pss, env operation p = .ok (resf p)) :
    ∃ stf, executemany env st0 operation pss = .ok (stf, pss)
      ∧ stf.rowcount = (pss.map (fun p =>
          if (resf p).meta.changes.getD ((resf p).results.length : Int) ≥ 0
          then (resf p).meta.changes.getD ((resf p).results.length : Int)
          else 0)).sum
      ∧ ((∀ p ∈ pss, (resf p).meta.changes = some 1) →
          stf.rowcount = (pss.length : Int))
      ∧ (∀ plast, pss.getLast? = some plast →
          stf.result_data = some (resf plast).results
          ∧ stf.description
            = buildDescription operation (resf plast).columns
                (resf plast).results) := by
  obtain ⟨stf, heq, hclf, hrc, hnil, hlast⟩ :=
    executemanyGo_spec env operation resf pss st0 0 [] hcl hok
  have hsum : ∀ l : List (List PyVal),
      (∀ p ∈ l, (resf p).meta.changes = some 1) →
      (l.map (fun p =>
        if (resf p).meta.changes.getD ((resf p).results.length : Int) ≥ 0
        then (resf p).meta.changes.getD ((resf p).results.length : Int)
        else 0)).sum = (l.length : Int) := by
    intro l
    induction l with
    | nil => intro _; rfl
    | cons a t iht =>
      intro hall
      simp only [List.map_cons, List.sum_cons, List.length_cons]
      rw [hall a (by simp), iht (fun q hq => hall q (by simp [hq]))]
      simp
      omega
  refine ⟨stf, ?_, ?_, ?_, hlast⟩
  · unfold executemany
    rw [if_neg (by simp [hcl])]
    simpa using heq
  · simpa using hrc
  · intro hone
    rw [hrc, hsum pss hone]
    simp

/-- Witness for C9: two UPDATE parameter sets, each changing one row,
leave `rowcount = 2` and the call log equal to the parameter list. -/
theorem executemany_rowcount_witness :
    ∃ stf, executemany envOneChange initCursorState
        "UPDATE t SET a = ? WHERE b = ?" [[PyVal.vint 1], [PyVal.vint 2]]
      = .ok (stf, [[PyVal.vint 1], [PyVal.vint 2]])
      ∧ stf.rowcount = 2 := by
  obtain ⟨stf, heq, hrc, hone, hlast⟩ :=
    executemany_rowcount envOneChange "UPDATE t SET a = ? WHERE b = ?"
      [[PyVal.vint 1], [PyVal.vint 2]] initCursorState
      (fun _ => { results := [], columns := [], meta := { changes := some 1 } })
      rfl (fun p _ => rfl)
  refine ⟨stf, heq, ?_⟩
  rw [hone (fun p _ => rfl)]
  rfl

/-- C4: in the native-binding transport (both the async Worker path and the
run_sync path), the raw column-recovery call is issued if and only if
parsing `all()` produced zero columns and zero rows and the statement
passes the read gate (`strip().upper().startswith("SELECT")`, the
read-statement keyword); it is never issued otherwise, and the fallback
never changes the (empty) row list — only the column list. -/
theorem fallback_issued_iff (env : D1Env) (query : String)
    (parameters : List PyVal) (results : List Row) (meta : Meta)
    (hA : env.allRes query (workerAsyncBound parameters) = .ok (results, meta))
    (hS : env.allRes query (syncWorkerBound parameters) = .ok (results, meta)) :
    (∃ out : QueryResult × Bool,
      workerExecuteQueryAsync env query parameters = .ok out
      ∧ out.1.results = (parse_all_result results meta).results
      ∧ (out.2 = true ↔ ((parse_all_result results meta).columns = []
          ∧ (parse_all_result results meta).results = []
          ∧ selectFallbackGate query = true))
      ∧ (selectFallbackGate query = false → out.2 = false))
    ∧ (∃ out : QueryResult × Bool,
      syncWorkerExecuteQuery env query parameters = .ok out
      ∧ out.1.results = (parse_all_result results meta).results
      ∧ (out.2 = true ↔ ((parse_all_result results meta).columns = []
          ∧ (parse_all_result results meta).results = []
          ∧ selectFallbackGate query = true))
      ∧ (selectFallbackGate query = false → out.2 = false)) := by
  constructor
  · by_cases hc : ((parse_all_result results meta).columns.isEmpty
        && (parse_all_result results meta).results.isEmpty
        && selectFallbackGate query) = true
    · have hc' := hc
      simp only [Bool.and_eq_true, List.isEmpty_iff] at hc'
      cases hraw : env.rawRes query (workerAsyncBound parameters) with
      | error e =>
        refine ⟨(parse_all_result results meta, true), ?_, rfl, ?_, ?_⟩
        · simp only [workerExecuteQueryAsync, hA]
          rw [if_pos hc]
          simp only [hraw]
        · simp [hc'.1.1, hc'.1.2, hc'.2]
        · intro hgf
          exact absurd hc'.2 (by simp [hgf])
      | ok rawRows =>
        cases rawRows with
        | nil =>
          refine ⟨(parse_all_result results meta, true), ?_, rfl, ?_, ?_⟩
          · simp only [workerExecuteQueryAsync, hA]
            rw [if_pos hc]
            simp only [hraw]
          · simp [hc'.1.1, hc'.1.2, hc'.2]
          · intro hgf
            exact absurd hc'.2 (by simp [hgf])
        | cons first_row rest =>
          refine ⟨({ parse_all_result results meta with
              columns := if first_row.isEmpty then [] else first_row }, true),
            ?_, rfl, ?_, ?_⟩
          · simp only [workerExecuteQueryAsync, hA]
            rw [if_pos hc]
            simp only [hraw]
          · simp [hc'.1.1, hc'.1.2, hc'.2]
          · intro hgf
            exact absurd hc'.2 (by simp [hgf])
    · refine ⟨(parse_all_result results meta, false), ?_, rfl, ?_, fun _ => rfl⟩
      · simp only [workerExecuteQueryAsync, hA]
        rw [if_neg hc]
      · simp only [Bool.and_eq_true, List.isEmpty_iff] at hc
        constructor
        · intro hf
          cases hf
        · intro ⟨h1, h2, h3⟩
          exact absurd ⟨⟨h1, h2⟩, h3⟩ hc
  · by_cases hc : ((parse_all_result results meta).columns.isEmpty
        && (parse_all_result results meta).results.isEmpty
        && selectFallbackGate query) = true
    · have hc' := hc
      simp only [Bool.and_eq_true, List.isEmpty_iff] at hc'
      cases hraw : env.rawRes query (syncWorkerBound parameters) with
      | error e =>
        refine ⟨(parse_all_result results meta, true), ?_, rfl, ?_, ?_⟩
        · simp only [syncWorkerExecuteQuery, hS]
          rw [if_pos hc]
          simp only [hraw]
        · simp [hc'.1.1, hc'.1.2, hc'.2]
        · intro hgf
          exact absurd hc'.2 (by simp [hgf])
      | ok rawRows =>
        cases rawRows with
        | nil =>
          refine ⟨(parse_all_result results meta, true), ?_, rfl, ?_, ?_⟩
          · simp only [syncWorkerExecuteQuery, hS]
            rw [if_pos hc]
            simp only [hraw]
          · simp [hc'.1.1, hc'.1.2, hc'.2]
          · intro hgf
            exact absurd hc'.2 (by simp [hgf])
        | cons first_row rest =>
          refine ⟨(if first_row.isEmpty then (parse_all_result results meta, true)
              else ({ parse_all_result results meta with
                columns := first_row }, true)), ?_, ?_, ?_, ?_⟩
          · simp only [syncWorkerExecuteQuery, hS]
            rw [if_pos hc]
            simp only [hraw]
          · by_cases hfe : first_row.isEmpty = true
            · rw [if_pos hfe]
            · rw [if_neg hfe]
          · by_cases hfe : first_row.isEmpty = true
            · rw [if_pos hfe]
              simp [hc'.1.1, hc'.1.2, hc'.2]
            · rw [if_neg hfe]
              simp [hc'.1.1, hc'.1.2, hc'.2]
          · intro hgf
            exact absurd hc'.2 (by simp [hgf])
    · refine ⟨(parse_all_result results meta, false), ?_, rfl, ?_, fun _ => rfl⟩
      · simp only [syncWorkerExecuteQuery, hS]
        rw [if_neg hc]
      · simp only [Bool.and_eq_true, List.isEmpty_iff] at hc
        constructor
        · intro hf
          cases hf
        · intro ⟨h1, h2, h3⟩
          exact absurd ⟨⟨h1, h2⟩, h3⟩ hc

/-- Witness for C4: a zero-row, zero-column SELECT over a binding whose
raw call answers with a one-column header does issue the fallback. -/
theorem fallback_issued_iff_witness :
    ∃ out : QueryResult × Bool,
      workerExecuteQueryAsync envFallbackOk "SELECT id FROM t" [] = .ok out
      ∧ out.2 = true ∧ out.1.results = [] := by
  obtain ⟨⟨out, heq, hres, hiff, _⟩, _⟩ :=
    fallback_issued_iff envFallbackOk "SELECT id FROM t" [] [] {} rfl rfl
  refine ⟨out, heq, ?_, ?_⟩
  · exact hiff.mpr ⟨rfl, rfl, by decide⟩
  · rw [hres]
    rfl

/-- C6: when the column-recovery fallback call fails, the error is
swallowed: the overall execution still succeeds and returns the zero-row
result, with the column list left empty, on both Worker paths. -/
theorem fallback_error_swallowed (env : D1Env) (query : String)
    (parameters : List PyVal) (meta : Meta)
    (hA : env.allRes query (workerAsyncBound parameters) = .ok ([], meta))
    (hS : env.allRes query (syncWorkerBound parameters) = .ok ([], meta))
    (hgate : selectFallbackGate query = true)
    (hrawA : env.rawRes query (workerAsyncBound parameters) = .error ())
    (hrawS : env.rawRes query (syncWorkerBound parameters) = .error ()) :
    workerExecuteQueryAsync env query parameters
        = .ok ({ results := [], columns := [], meta := meta }, true)
    ∧ syncWorkerExecuteQuery env query parameters
        = .ok ({ results := [], columns := [], meta := meta }, true) := by
  constructor
  · simp only [workerExecuteQueryAsync, hA]
    rw [if_pos (by simp [parse_all_result, hgate])]
    simp only [hrawA]
    rfl
  · simp only [syncWorkerExecuteQuery, hS]
    rw [if_pos (by simp [parse_all_result, hgate])]
    simp only [hrawS]
    rfl

/-- Witness for C6 at a concrete SELECT whose raw fallback call errors. -/
theorem fallback_error_swallowed_witness :
    workerExecuteQueryAsync envFallbackErr "SELECT id FROM t" []
        = .ok ({ results := [], columns := [], meta := {} }, true)
    ∧ syncWorkerExecuteQuery envFallbackErr "SELECT id FROM t" []
        = .ok ({ results := [], columns := [], meta := {} }, true) :=
  fallback_error_swallowed envFallbackErr "SELECT id FROM t" [] {}
    rfl rfl (by decide) rfl rfl

/-- C5 (refuting evidence): at the failing input `parameters = [None]`, the
async Worker path (`WorkerConnection._execute_query_async`) hands `None` to
`stmt.bind` unconverted, while the run_sync path
(`SyncWorkerConnection._execute_query`) converts it to the JS null marker
via `convert_param`; the two paths disagree, so it is not the case that
every execution path converts `None` before binding. -/
theorem none_binding_divergence :
    workerAsyncBound [PyVal.vnull] = [BindVal.py PyVal.vnull]
    ∧ syncWorkerBound [PyVal.vnull] = [BindVal.jsNull]
    ∧ workerAsyncBound [PyVal.vnull] ≠ syncWorkerBound [PyVal.vnull] := by
  refine ⟨rfl, rfl, ?_⟩
  decide

/-- C10: on the greenlet-bridged dialect cursor, executing a row-returning
statement always leaves `rowcount = -1` and `lastrowid = None` no matter
what the provider returned; only non-row-returning statements propagate the
underlying cursor's `rowcount` (meta `changes`, defaulting to the buffered
row count) and `lastrowid` (meta `last_row_id`). -/
theorem adapt_cursor_select_rowcount (env : Env) (operation : String)
    (parameters : List PyVal) (res : QueryResult) (acs : AdaptCursorState)
    (h : env operation parameters = .ok res) :
    ∃ acs2, adaptExecute env acs operation parameters = .ok acs2
      ∧ (isSelectLike operation = true →
          acs2.rowcount = -1 ∧ acs2.lastrowid = none)
      ∧ (isSelectLike operation = false →
          acs2.rowcount = res.meta.changes.getD (res.results.length : Int)
          ∧ acs2.lastrowid = res.meta.last_row_id
          ∧ acs2.rows = []) := by
  have hexec : execute env initCursorState operation parameters
      = .ok (processResult initCursorState res operation) := by
    unfold execute
    rw [if_neg (by simp [initCursorState]), h]
  by_cases hs : isSelectLike operation = true
  · have hrun : adaptExecute env acs operation parameters = .ok { acs with
        description :=
          some ((processResult initCursorState res operation).description.getD [])
        lastrowid := none
        rowcount := -1
        rows := (fetchLoop (processResult initCursorState res operation)).1 } := by
      simp only [adaptExecute, hexec]
      rw [if_pos hs]
    refine ⟨_, hrun, fun _ => ⟨rfl, rfl⟩, fun hf => ?_⟩
    rw [hs] at hf
    cases hf
  · have hs' : isSelectLike operation = false := by
      cases hq : isSelectLike operation
      · rfl
      · exact absurd hq hs
    have hrun : adaptExecute env acs operation parameters = .ok { acs with
        description := none
        lastrowid := (processResult initCursorState res operation).meta.last_row_id
        rowcount := (processResult initCursorState res operation).rowcount
        rows := [] } := by
      simp only [adaptExecute, hexec]
      rw [if_neg (by simp [hs'])]
    refine ⟨_, hrun, fun ht => absurd ht hs, fun _ => ⟨?_, ?_, rfl⟩⟩
    · simp
    · simp

/-- Witness for C10 at a concrete one-row SELECT. -/
theorem adapt_cursor_select_rowcount_witness :
    ∃ acs2, adaptExecute envSelectOne {} "SELECT id FROM t" [] = .ok acs2
      ∧ acs2.rowcount = -1 ∧ acs2.lastrowid = none := by
  obtain ⟨acs2, heq, hsel, _⟩ :=
    adapt_cursor_select_rowcount envSelectOne "SELECT id FROM t" []
      { results := [[("id", PyVal.vint 1)]], columns := ["id"] } {} rfl
  exact ⟨acs2, heq, hsel (by decide)⟩

end D1
